import Mathlib

/-!
Verification of the WB-Parser slot-monitoring core (src/monitor.py, src/wb_api.py).

This file shallowly embeds the data model and the algorithms of the monitoring
loop — the slot matcher (`_find_suitable_slots_with_coefficients`), the change
detector / notifier gateway (`_notify_about_found_slots`, `_slots_changed`,
`_get_new_slots`), and the adaptive cycle scheduler (`_calculate_dynamic_pause`,
the `start_monitoring` loop) — and proves or refutes the specified properties.

Modelling conventions:
* Python `float` time/coefficient values are modelled as `Rat` (the code only
  compares and does exact arithmetic on them; `0.1` is `1/10`).
* Python `datetime` is `PyDateTime` (a calendar day ordinal plus a
  time-of-day component); `.date()` is the `day` projection.
* Python f-string keys such as `f"{a}_{b}_{c}"` are modelled by the tuple of
  the interpolated fields, in the same order.
* Python `dict`/`set` state is modelled by lists plus `Finset`s of keys;
  dictionary insertion with overwrite is last-write-wins lookup.
* File writes (`_save_active_slots`, `_save_found_slot`) are modelled as
  fields of the monitor state (`persisted`, `write_log`, `audit_log`).
-/

/-- Model of Python `datetime`: `day` is the calendar-day ordinal returned by
`.date()`, `secs` a time-of-day making `found_at` timestamps distinguishable. -/
structure PyDateTime where
  day : Int
  secs : Nat
deriving DecidableEq, Repr

/-- `MonitoringTask` from src/sheets_parser.py (one row of the sheet). -/
structure MonitoringTask where
  barcode : String
  quantity : Int
  allowed_warehouses : List Int
  max_coefficient : Rat
  date_from : Int
  date_to : Int
  is_active : Bool
deriving DecidableEq, Repr

/-- `WarehouseOption` from src/wb_api.py. -/
structure WarehouseOption where
  warehouse_id : Int
  can_box : Bool
  can_monopollet : Bool
  can_supersafe : Bool
deriving DecidableEq, Repr

/-- `SlotInfo` from src/wb_api.py (per-product availability answer). -/
structure SlotInfo where
  barcode : String
  warehouses : List WarehouseOption
  is_error : Bool
deriving DecidableEq, Repr

/-- `AcceptanceCoefficient` from src/wb_api.py (the fields the monitor reads). -/
structure AcceptanceCoefficient where
  date : PyDateTime
  coefficient : Rat
  warehouse_id : Int
  warehouse_name : String
  allow_unload : Bool
  box_type_name : String
  box_type_id : Int
deriving DecidableEq, Repr

/-- `AcceptanceCoefficient.is_slot_available` from src/wb_api.py:
`(self.coefficient == 0 or self.coefficient == 1) and self.allow_unload`. -/
def AcceptanceCoefficient.is_slot_available (c : AcceptanceCoefficient) : Bool :=
  (decide (c.coefficient = 0) || decide (c.coefficient = 1)) && c.allow_unload

/-- `FoundSlot` from src/monitor.py. -/
structure FoundSlot where
  barcode : String
  warehouse_id : Int
  warehouse_name : String
  coefficient : Rat
  box_type_name : String
  date : PyDateTime
  allow_unload : Bool
  found_at : PyDateTime
  monitoring_task : MonitoringTask
deriving DecidableEq, Repr

/-- The dictionary key used when building `coef_index` in
`SlotMonitor._check_task_group`:
`(coef.warehouse_id, coef.date.date(), coef.box_type_id)`. -/
def coefKey (c : AcceptanceCoefficient) : Int × Int × Int :=
  (c.warehouse_id, c.date.day, c.box_type_id)

/-- Lookup in the `coef_index` dictionary built by
`for coef in coefficients: coef_index[key] = coef` — later entries overwrite
earlier ones, so lookup is last-write-wins over the source list. -/
def indexLookup (coefs : List AcceptanceCoefficient) (k : Int × Int × Int) :
    Option AcceptanceCoefficient :=
  coefs.reverse.find? (fun c => decide (coefKey c = k))

/-- The inclusive day range scanned by the matcher's
`while check_date <= end_date` loop. -/
def dateRange (start stop : Int) : List Int :=
  (List.range (stop - start + 1).toNat).map (fun i => start + i)

/-- `SlotMonitor._find_suitable_slots_with_coefficients` from src/monitor.py.
`now` supplies both `datetime.now().date()` (as `now.day`) and the
`found_at=datetime.now()` timestamp. -/
def findSuitableSlots (slot : SlotInfo) (task : MonitoringTask)
    (coefs : List AcceptanceCoefficient) (now : PyDateTime) : List FoundSlot :=
  slot.warehouses.flatMap (fun warehouse =>
    if task.allowed_warehouses ≠ [] ∧ warehouse.warehouse_id ∉ task.allowed_warehouses then
      []
    else
      (dateRange (max task.date_from now.day) task.date_to).flatMap (fun check_date =>
        ([1, 2, 6] : List Int).flatMap (fun box_type_id =>
          (indexLookup coefs (warehouse.warehouse_id, check_date, box_type_id)).elim []
          (fun coef =>
            if coef.is_slot_available = true ∧
               coef.coefficient ≤ task.max_coefficient ∧
               task.date_from ≤ check_date ∧ check_date ≤ task.date_to then
              [{ barcode := slot.barcode
                 warehouse_id := warehouse.warehouse_id
                 warehouse_name := coef.warehouse_name
                 coefficient := coef.coefficient
                 box_type_name := coef.box_type_name
                 date := coef.date
                 allow_unload := coef.allow_unload
                 found_at := now
                 monitoring_task := task }]
            else []))))

/-- Concrete monitoring task used in witnesses and counterexamples. -/
def exTask : MonitoringTask :=
  { barcode := "A", quantity := 1, allowed_warehouses := [100]
    max_coefficient := 1, date_from := 0, date_to := 0, is_active := true }

/-- Concrete coefficient entry matching `exTask` at warehouse 100, day 0. -/
def exCoef : AcceptanceCoefficient :=
  { date := ⟨0, 0⟩, coefficient := 0, warehouse_id := 100, warehouse_name := "W"
    allow_unload := true, box_type_name := "Box", box_type_id := 1 }

/-- Concrete availability answer for product "A". -/
def exSlotInfo : SlotInfo :=
  { barcode := "A", warehouses := [⟨100, true, true, true⟩], is_error := false }

/-- The FoundSlot the matcher emits on the concrete inputs above. -/
def exFound : FoundSlot :=
  { barcode := "A", warehouse_id := 100, warehouse_name := "W", coefficient := 0
    box_type_name := "Box", date := ⟨0, 0⟩, allow_unload := true
    found_at := ⟨0, 7⟩, monitoring_task := exTask }

/-- The serialized record shape produced by `FoundSlot.to_dict` — the fields
the change detector and notifier actually read (`to_dict` also emits derived
`is_available`/`matches_criteria` flags and a copy of the task, which no
downstream consumer in src/monitor.py reads). The `date` field carries the full
datetime (`date.isoformat()`), `found_at` the discovery timestamp. -/
structure SlotRecord where
  barcode : String
  warehouse_id : Int
  warehouse_name : String
  coefficient : Rat
  box_type_name : String
  date : PyDateTime
  allow_unload : Bool
  found_at : PyDateTime
deriving DecidableEq, Repr

/-- `FoundSlot.to_dict` from src/monitor.py, restricted to the read fields. -/
def FoundSlot.to_dict (s : FoundSlot) : SlotRecord :=
  { barcode := s.barcode, warehouse_id := s.warehouse_id
    warehouse_name := s.warehouse_name, coefficient := s.coefficient
    box_type_name := s.box_type_name, date := s.date
    allow_unload := s.allow_unload, found_at := s.found_at }

/-- The comparison key built in `_slots_changed` and `_get_new_slots`:
`f"{slot['barcode']}_{slot['warehouse_id']}_{slot['date']}_{slot['box_type_name']}_{slot['coefficient']}"`
— note `slot['date']` is the full datetime isoformat, and `found_at` is
excluded. -/
def changeKey (r : SlotRecord) : String × Int × PyDateTime × String × Rat :=
  (r.barcode, r.warehouse_id, r.date, r.box_type_name, r.coefficient)

/-- The bookkeeping-memo key built in `_notify_about_found_slots`:
`f"{slot.barcode}_{slot.warehouse_id}_{slot.date.date()}_{slot.box_type_name}"`
— the calendar day only, and no coefficient. -/
def memoKey (s : FoundSlot) : String × Int × Int × String :=
  (s.barcode, s.warehouse_id, s.date.day, s.box_type_name)

/-- The set of comparison keys of a slot list (the Python `set()` built in
`_slots_changed` / `_get_new_slots`). -/
def keySet (l : List SlotRecord) : Finset (String × Int × PyDateTime × String × Rat) :=
  (l.map changeKey).toFinset

/-- `SlotMonitor._slots_changed` from src/monitor.py: length fast path first,
then comparison of the two key sets. -/
def slotsChanged (current new_slots : List SlotRecord) : Bool :=
  if new_slots.length ≠ current.length then true
  else decide (keySet current ≠ keySet new_slots)

/-- `SlotMonitor._get_new_slots` from src/monitor.py: with a non-empty previous
snapshot, keep the new records whose key is absent from the previous key set. -/
def getNewSlots (current new_slots : List SlotRecord) : List SlotRecord :=
  if current = [] then new_slots
  else new_slots.filter (fun s => decide (changeKey s ∉ keySet current))

/-- The mutable state of `SlotMonitor` touched by the notification path, plus
logs modelling the file writes:
* `current_active_slots` — the in-memory snapshot list;
* `persisted` — the contents of `current_active_slots.json` (last
  `_save_active_slots` payload);
* `write_log` — one entry per `_save_active_slots` call, in order;
* `notified_slots` — the `self.notified_slots` memo (as a list of keys);
* `slots_found` — `self.stats["slots_found"]`;
* `audit_log` — the records appended by `_save_found_slot` (daily files
  concatenated in append order). -/
structure MonitorState where
  current_active_slots : List SlotRecord
  persisted : List SlotRecord
  write_log : List (List SlotRecord)
  notified_slots : List (String × Int × Int × String)
  slots_found : Nat
  audit_log : List SlotRecord
deriving DecidableEq, Repr

/-- One iteration of the bookkeeping loop at the end of
`_notify_about_found_slots`: consult the memo, and on a fresh key add it,
bump `stats["slots_found"]` and append one audit record (`_save_found_slot`). -/
def memoStep (st : MonitorState) (slot : FoundSlot) : MonitorState :=
  if memoKey slot ∈ st.notified_slots then st
  else
    { st with notified_slots := st.notified_slots ++ [memoKey slot]
              slots_found := st.slots_found + 1
              audit_log := st.audit_log ++ [slot.to_dict] }

/-- The `for slot in found_slots` bookkeeping loop of
`_notify_about_found_slots`. -/
def updateMemo (st : MonitorState) (slots : List FoundSlot) : MonitorState :=
  slots.foldl memoStep st

/-- `SlotMonitor._notify_about_found_slots` from src/monitor.py. Returns the
new state and the list of payloads passed to `send_slot_notification` (one per
element of `new_only_slots`, sequentially, via
`_send_new_slots_to_existing_users`). -/
def notifyAboutFoundSlots (st : MonitorState) (found_slots : List FoundSlot) :
    MonitorState × List SlotRecord :=
  if found_slots = [] then (st, [])
  else
    let new_slots_data := found_slots.map FoundSlot.to_dict
    let stepped :=
      if slotsChanged st.current_active_slots new_slots_data then
        ({ st with current_active_slots := new_slots_data
                   persisted := new_slots_data
                   write_log := st.write_log ++ [new_slots_data] },
         getNewSlots st.current_active_slots new_slots_data)
      else (st, [])
    (updateMemo stepped.1 found_slots, stepped.2)

/-- The per-product dispatch in `_check_task_group`:
`if suitable_slots: await self._notify_about_found_slots(suitable_slots)`. -/
def processProduct (st : MonitorState) (found : List FoundSlot) :
    MonitorState × List SlotRecord :=
  if found = [] then (st, [])
  else notifyAboutFoundSlots st found

/-- The sequence of per-product notification calls performed during one
monitoring cycle (`_perform_monitoring_cycle` iterating `_check_task_group`
over groups, each iterating products), given the matcher output for each
product in order. Returns the final state and all notifier payloads. -/
def runCycle (st : MonitorState) : List (List FoundSlot) → MonitorState × List SlotRecord
  | [] => (st, [])
  | p :: ps =>
    let r := processProduct st p
    let rest := runCycle r.1 ps
    (rest.1, r.2 ++ rest.2)

/-- Builder for concrete FoundSlots over `exTask` (warehouse, coefficient,
found_at time vary; slot date is day 1). -/
def mkSlot (wh : Int) (coef : Rat) (fa : Nat) : FoundSlot :=
  { barcode := "A", warehouse_id := wh, warehouse_name := "W", coefficient := coef
    box_type_name := "Box", date := ⟨1, 0⟩, allow_unload := true
    found_at := ⟨1, fa⟩, monitoring_task := exTask }

/-- Slot X as found in a first cycle. -/
def exSlotX : FoundSlot := mkSlot 100 0 1

/-- Slot X found again later: same identity, different `found_at`. -/
def exSlotX2 : FoundSlot := mkSlot 100 0 2

/-- A distinct slot Y (different warehouse). -/
def exSlotY : FoundSlot := mkSlot 200 0 1

/-- A slot at the same warehouse/date/box as X but with coefficient 1 — a
distinct §3 identity key that shares X's bookkeeping-memo key. -/
def exSlotC1 : FoundSlot := mkSlot 100 1 3

/-- The monitor state at startup with nothing loaded. -/
def exEmptyState : MonitorState :=
  { current_active_slots := [], persisted := [], write_log := []
    notified_slots := [], slots_found := 0, audit_log := [] }

/-- The monitor state after a first cycle that found exactly slot X. -/
def exStateAfterX : MonitorState :=
  { current_active_slots := [exSlotX.to_dict], persisted := [exSlotX.to_dict]
    write_log := [[exSlotX.to_dict]], notified_slots := [memoKey exSlotX]
    slots_found := 1, audit_log := [exSlotX.to_dict] }

/-- A snapshot holding two records with the same identity key (X found twice,
different `found_at`). -/
def exStateDup : MonitorState :=
  { current_active_slots := [exSlotX.to_dict, exSlotX2.to_dict]
    persisted := [exSlotX.to_dict, exSlotX2.to_dict]
    write_log := [], notified_slots := [memoKey exSlotX]
    slots_found := 1, audit_log := [] }

/-- The scheduler bookkeeping of `SlotMonitor`:
`self.current_minute_start` and `self.cycles_in_current_minute`. -/
structure SchedulerState where
  current_minute_start : Option Rat
  cycles_in_current_minute : Nat
deriving DecidableEq, Repr

/-- The window bookkeeping at the top of `_calculate_dynamic_pause`: start a
new minute window (counter := 1) when none is active or ≥ 60s have elapsed,
otherwise increment the in-window cycle counter. This runs on EVERY adaptive
call, before the slow-cycle test. -/
def windowUpdate (st : SchedulerState) (now : Rat) : SchedulerState :=
  match st.current_minute_start with
  | none => ⟨some now, 1⟩
  | some s => if now - s ≥ 60 then ⟨some now, 1⟩
              else ⟨some s, st.cycles_in_current_minute + 1⟩

/-- `SlotMonitor._calculate_dynamic_pause` from src/monitor.py (`0.1` is
`1/10`). Branches in source order: adaptive disabled → fixed interval;
window bookkeeping; slow cycle (≥ 10s) → 0.1; six cycles used → remainder of
the minute if positive else 0.1; otherwise even spacing
`max 0.1 ((60 - elapsed) / remaining_cycles)` with the `remaining_cycles <= 0`
guard of the source kept. -/
def calculateDynamicPause (enableAdaptive : Bool) (checkInterval : Rat)
    (st : SchedulerState) (cycle_duration now : Rat) : Rat × SchedulerState :=
  if enableAdaptive = false then (checkInterval, st)
  else
    let st' := windowUpdate st now
    let start := st'.current_minute_start.getD now
    let pause :=
      if cycle_duration ≥ 10 then 1/10
      else if st'.cycles_in_current_minute ≥ 6 then
        if 60 - (now - start) > 0 then 60 - (now - start) else 1/10
      else if (6 - (st'.cycles_in_current_minute : Int)) ≤ 0 then 1/10
      else max (1/10)
        ((60 - (now - start)) / (((6 - (st'.cycles_in_current_minute : Int)) : Int) : Rat))
    (pause, st')

/-- Outcome kinds of one monitoring cycle, matching where exceptions are
caught in src/monitor.py:
* `ok` — the cycle ran to completion;
* `taskFetchError` — exception while reading the sheet, caught inside
  `_perform_monitoring_cycle` (early return, cycle ends normally);
* `groupError` — exception in one task group, caught by the per-group
  `except` (loop continues, cycle ends normally);
* `outerError` — exception escaping `_perform_monitoring_cycle`, caught by
  the `except Exception` of the `while True` loop in `start_monitoring`;
* `keyboardInterrupt` — `KeyboardInterrupt`, which is not an `Exception`
  subclass and reaches the dedicated handler that breaks the loop. -/
inductive CycleEvent where
  | ok
  | taskFetchError
  | groupError
  | outerError
  | keyboardInterrupt
deriving DecidableEq, Repr

/-- Loop-level state of `start_monitoring`: `self.stats["errors_count"]` and
the scheduler bookkeeping. -/
structure LoopState where
  errors_count : Nat
  sched : SchedulerState
deriving DecidableEq, Repr

/-- Result of one iteration of the `while True` loop: keep running after
sleeping `pause`, or stop (only on `KeyboardInterrupt`). -/
inductive StepOutcome where
  | running (st : LoopState) (pause : Rat)
  | stopped (st : LoopState)
deriving DecidableEq, Repr

/-- One iteration of the `while True` loop of `start_monitoring`, given the
cycle's outcome: normal completions (including inner-caught task-fetch and
group errors, which do NOT touch `errors_count`) proceed to
`_calculate_dynamic_pause`; an exception reaching the outer handler is
counted and followed by the fixed 30-second recovery sleep; only
`KeyboardInterrupt` breaks the loop. -/
def monitorLoopStep (enableAdaptive : Bool) (checkInterval : Rat)
    (st : LoopState) (ev : CycleEvent) (cycle_duration now : Rat) : StepOutcome :=
  match ev with
  | .keyboardInterrupt => .stopped st
  | .outerError => .running ⟨st.errors_count + 1, st.sched⟩ 30
  | _ =>
    .running
      ⟨st.errors_count,
       (calculateDynamicPause enableAdaptive checkInterval st.sched cycle_duration now).2⟩
      (calculateDynamicPause enableAdaptive checkInterval st.sched cycle_duration now).1

lemma indexLookup_coefKey {coefs : List AcceptanceCoefficient}
    {k : Int × Int × Int} {c : AcceptanceCoefficient}
    (h : indexLookup coefs k = some c) : coefKey c = k := by
  have hp := List.find?_some h
  exact of_decide_eq_true hp

/-- C1: every FoundSlot emitted by the slot matcher comes from a coefficient
entry present in the index at its own `(warehouse, date, box_type)` key whose
`is_slot_available` predicate holds; the slot's coefficient satisfies
`(= 0 ∨ = 1)` with `allow_unload`, is at most `task.max_coefficient`; the slot
date lies within `[task.date_from, task.date_to]`; and the warehouse belongs to
`task.allowed_warehouses` whenever that list is non-empty. -/
theorem found_slot_satisfies_all_criteria
    (task : MonitoringTask) (coefs : List AcceptanceCoefficient)
    (slot : SlotInfo) (now : PyDateTime) (fs : FoundSlot)
    (hmem : fs ∈ findSuitableSlots slot task coefs now) :
    (∃ coef, indexLookup coefs (fs.warehouse_id, fs.date.day, coef.box_type_id) = some coef ∧
       coef.box_type_name = fs.box_type_name ∧ coef.coefficient = fs.coefficient ∧
       coef.allow_unload = fs.allow_unload ∧ coef.is_slot_available = true) ∧
    ((fs.coefficient = 0 ∨ fs.coefficient = 1) ∧ fs.allow_unload = true) ∧
    fs.coefficient ≤ task.max_coefficient ∧
    (task.date_from ≤ fs.date.day ∧ fs.date.day ≤ task.date_to) ∧
    (task.allowed_warehouses ≠ [] → fs.warehouse_id ∈ task.allowed_warehouses) := by
  simp only [findSuitableSlots, List.mem_flatMap] at hmem
  obtain ⟨w, hw, hmem⟩ := hmem
  by_cases hallow : task.allowed_warehouses ≠ [] ∧ w.warehouse_id ∉ task.allowed_warehouses
  · rw [if_pos hallow] at hmem
    simp at hmem
  · rw [if_neg hallow] at hmem
    simp only [List.mem_flatMap] at hmem
    obtain ⟨d, _, bt, _, hmem⟩ := hmem
    rcases hidx : indexLookup coefs (w.warehouse_id, d, bt) with _ | coef
    · rw [hidx] at hmem
      simp at hmem
    · rw [hidx] at hmem
      simp only [Option.elim_some] at hmem
      by_cases hcrit : coef.is_slot_available = true ∧
          coef.coefficient ≤ task.max_coefficient ∧
          task.date_from ≤ d ∧ d ≤ task.date_to
      · rw [if_pos hcrit] at hmem
        simp only [List.mem_singleton] at hmem
        subst hmem
        have hkey := indexLookup_coefKey hidx
        simp only [coefKey, Prod.mk.injEq] at hkey
        obtain ⟨hkw, hkd, hkb⟩ := hkey
        have havail := hcrit.1
        simp only [AcceptanceCoefficient.is_slot_available, Bool.and_eq_true,
          Bool.or_eq_true, decide_eq_true_eq] at havail
        refine ⟨⟨coef, ?_, rfl, rfl, rfl, hcrit.1⟩, ⟨havail.1, havail.2⟩, hcrit.2.1, ?_, ?_⟩
        · simpa [hkw, hkd, hkb] using hidx
        · simpa [hkd] using hcrit.2.2
        · intro hne
          rcases not_and_or.mp hallow with h | h
          · exact absurd hne h
          · simpa using not_not.mp h
      · rw [if_neg hcrit] at hmem
        simp at hmem

/-- Witness for C1: the concrete FoundSlot `exFound` is emitted by the matcher
and the theorem's conclusion holds for it. -/
theorem found_slot_satisfies_all_criteria_witness :
    exFound ∈ findSuitableSlots exSlotInfo exTask [exCoef] ⟨0, 7⟩ ∧
    ((∃ coef, indexLookup [exCoef] (exFound.warehouse_id, exFound.date.day, coef.box_type_id) = some coef ∧
       coef.box_type_name = exFound.box_type_name ∧ coef.coefficient = exFound.coefficient ∧
       coef.allow_unload = exFound.allow_unload ∧ coef.is_slot_available = true) ∧
    ((exFound.coefficient = 0 ∨ exFound.coefficient = 1) ∧ exFound.allow_unload = true) ∧
    exFound.coefficient ≤ exTask.max_coefficient ∧
    (exTask.date_from ≤ exFound.date.day ∧ exFound.date.day ≤ exTask.date_to) ∧
    (exTask.allowed_warehouses ≠ [] → exFound.warehouse_id ∈ exTask.allowed_warehouses)) :=
  ⟨by decide,
   found_slot_satisfies_all_criteria exTask [exCoef] exSlotInfo ⟨0, 7⟩ exFound (by decide)⟩

lemma memoStep_fields (st : MonitorState) (s : FoundSlot) :
    (memoStep st s).current_active_slots = st.current_active_slots ∧
    (memoStep st s).persisted = st.persisted ∧
    (memoStep st s).write_log = st.write_log := by
  unfold memoStep
  split <;> simp

lemma updateMemo_fields (slots : List FoundSlot) (st : MonitorState) :
    (updateMemo st slots).current_active_slots = st.current_active_slots ∧
    (updateMemo st slots).persisted = st.persisted ∧
    (updateMemo st slots).write_log = st.write_log := by
  induction slots generalizing st with
  | nil => simp [updateMemo]
  | cons s rest ih =>
    have h1 := memoStep_fields st s
    have h2 := ih (memoStep st s)
    simp only [updateMemo, List.foldl_cons] at *
    exact ⟨h2.1.trans h1.1, h2.2.1.trans h1.2.1, h2.2.2.trans h1.2.2⟩

lemma slotsChanged_self (l : List SlotRecord) : slotsChanged l l = false := by
  simp [slotsChanged]

lemma notify_calls_nil_of_not_changed (st : MonitorState) (fs : List FoundSlot)
    (h : slotsChanged st.current_active_slots (fs.map FoundSlot.to_dict) = false) :
    (notifyAboutFoundSlots st fs).2 = [] := by
  by_cases hfs : fs = []
  · subst hfs; simp [notifyAboutFoundSlots]
  · simp [notifyAboutFoundSlots, hfs, h]

/-- C5: running the change detector twice in a row on the same found-slot list
produces zero notifier invocations on the second run. -/
theorem change_detector_idempotent (st : MonitorState) (fs : List FoundSlot) :
    (notifyAboutFoundSlots (notifyAboutFoundSlots st fs).1 fs).2 = [] := by
  by_cases hfs : fs = []
  · subst hfs; simp [notifyAboutFoundSlots]
  · by_cases hch : slotsChanged st.current_active_slots (fs.map FoundSlot.to_dict) = true
    · have hcur : (notifyAboutFoundSlots st fs).1.current_active_slots =
          fs.map FoundSlot.to_dict := by
        simp only [notifyAboutFoundSlots, if_neg hfs, hch, if_true]
        exact (updateMemo_fields fs _).1
      exact notify_calls_nil_of_not_changed _ fs (by rw [hcur]; exact slotsChanged_self _)
    · have hch' := eq_false_of_ne_true hch
      have hcur : (notifyAboutFoundSlots st fs).1.current_active_slots =
          st.current_active_slots := by
        simp only [notifyAboutFoundSlots, if_neg hfs, hch', Bool.false_eq_true, if_false]
        exact (updateMemo_fields fs _).1
      exact notify_calls_nil_of_not_changed _ fs (by rw [hcur]; exact hch')

/-- C4 (amended): when the new list has the same length as the stored snapshot
and the same identity-key set, the change detector treats it as unchanged — no
notifier call, no snapshot replacement, no persistence write. (Key-set
equality alone does not suffice: the length comparison short-circuits first,
see the counterexample.) -/
theorem unchanged_of_equal_keysets (st : MonitorState) (fs : List FoundSlot)
    (hlen : (fs.map FoundSlot.to_dict).length = st.current_active_slots.length)
    (hkeys : keySet st.current_active_slots = keySet (fs.map FoundSlot.to_dict)) :
    (notifyAboutFoundSlots st fs).2 = [] ∧
    (notifyAboutFoundSlots st fs).1.current_active_slots = st.current_active_slots ∧
    (notifyAboutFoundSlots st fs).1.persisted = st.persisted ∧
    (notifyAboutFoundSlots st fs).1.write_log = st.write_log := by
  have hch : slotsChanged st.current_active_slots (fs.map FoundSlot.to_dict) = false := by
    rw [slotsChanged, if_neg (by simp [hlen]), decide_eq_false_iff_not]
    simp [hkeys]
  by_cases hfs : fs = []
  · subst hfs; simp [notifyAboutFoundSlots]
  · have hu := updateMemo_fields fs st
    simp only [notifyAboutFoundSlots, if_neg hfs, hch, Bool.false_eq_true, if_false]
    exact ⟨trivial, hu.1, hu.2.1, hu.2.2⟩

/-- Witness for C4: a second cycle that finds exactly slot X again (only the
`found_at` timestamp differs) is treated as unchanged. -/
theorem unchanged_of_equal_keysets_witness :
    ([exSlotX2].map FoundSlot.to_dict).length = exStateAfterX.current_active_slots.length ∧
    keySet exStateAfterX.current_active_slots = keySet ([exSlotX2].map FoundSlot.to_dict) ∧
    exSlotX.to_dict ≠ exSlotX2.to_dict ∧
    ((notifyAboutFoundSlots exStateAfterX [exSlotX2]).2 = [] ∧
     (notifyAboutFoundSlots exStateAfterX [exSlotX2]).1.current_active_slots =
       exStateAfterX.current_active_slots ∧
     (notifyAboutFoundSlots exStateAfterX [exSlotX2]).1.persisted = exStateAfterX.persisted ∧
     (notifyAboutFoundSlots exStateAfterX [exSlotX2]).1.write_log = exStateAfterX.write_log) :=
  ⟨by decide, by decide, by decide,
   unchanged_of_equal_keysets exStateAfterX [exSlotX2] (by decide) (by decide)⟩

/-- Counterexample for C4 as stated: the stored snapshot holds X twice (same
identity key, different `found_at`), the new list holds X once. The key sets
are equal, yet the length fast path reports "changed" and a persistence write
occurs — so exact key-set content comparison is not authoritative. -/
theorem keyset_equal_but_changed_counterexample :
    keySet exStateDup.current_active_slots = keySet ([exSlotX].map FoundSlot.to_dict) ∧
    slotsChanged exStateDup.current_active_slots ([exSlotX].map FoundSlot.to_dict) = true ∧
    (notifyAboutFoundSlots exStateDup [exSlotX]).1.write_log ≠ exStateDup.write_log := by
  refine ⟨by decide, by decide, by decide⟩

/-- C3 (amended): when the change detector sees a changed key set, the notifier
is invoked once per element of the new list whose identity key is absent from
the previous snapshot's key set (in list order); when the new list's identity
keys are duplicate-free this is exactly once per key in newKeys − oldKeys; and
the persisted snapshot is replaced by the entire new list. -/
theorem notifier_once_per_new_key (st : MonitorState) (fs : List FoundSlot)
    (hfs : fs ≠ [])
    (hch : slotsChanged st.current_active_slots (fs.map FoundSlot.to_dict) = true)
    (hnd : ((fs.map FoundSlot.to_dict).map changeKey).Nodup) :
    (notifyAboutFoundSlots st fs).2 =
      (fs.map FoundSlot.to_dict).filter
        (fun r => decide (changeKey r ∉ keySet st.current_active_slots)) ∧
    ((notifyAboutFoundSlots st fs).2.map changeKey).Nodup ∧
    ((notifyAboutFoundSlots st fs).2.map changeKey).toFinset =
      keySet (fs.map FoundSlot.to_dict) \ keySet st.current_active_slots ∧
    (notifyAboutFoundSlots st fs).1.current_active_slots = fs.map FoundSlot.to_dict ∧
    (notifyAboutFoundSlots st fs).1.persisted = fs.map FoundSlot.to_dict := by
  have hcalls : (notifyAboutFoundSlots st fs).2 =
      getNewSlots st.current_active_slots (fs.map FoundSlot.to_dict) := by
    simp [notifyAboutFoundSlots, hfs, hch]
  have hfilter : getNewSlots st.current_active_slots (fs.map FoundSlot.to_dict) =
      (fs.map FoundSlot.to_dict).filter
        (fun r => decide (changeKey r ∉ keySet st.current_active_slots)) := by
    unfold getNewSlots
    split
    · next hc =>
      refine (List.filter_eq_self.mpr ?_).symm
      intro r _
      simp [hc, keySet]
    · rfl
  have hc1 : (notifyAboutFoundSlots st fs).2 =
      (fs.map FoundSlot.to_dict).filter
        (fun r => decide (changeKey r ∉ keySet st.current_active_slots)) :=
    hcalls.trans hfilter
  have hsub : ((notifyAboutFoundSlots st fs).2.map changeKey).Sublist
      ((fs.map FoundSlot.to_dict).map changeKey) := by
    rw [hc1]
    exact List.Sublist.map changeKey (List.filter_sublist _)
  refine ⟨hc1, hnd.sublist hsub, ?_, ?_, ?_⟩
  · ext k
    rw [hc1]
    set nd := fs.map FoundSlot.to_dict with hnddef
    simp only [keySet, List.mem_toFinset, List.mem_map, List.mem_filter,
      Finset.mem_sdiff, decide_eq_true_eq]
    constructor
    · rintro ⟨r, ⟨hr, hrk⟩, rfl⟩
      refine ⟨⟨r, hr, rfl⟩, ?_⟩
      simpa [keySet] using hrk
    · rintro ⟨⟨r, hr, rfl⟩, hnk⟩
      exact ⟨r, ⟨hr, by simpa [keySet] using hnk⟩, rfl⟩
  · simp only [notifyAboutFoundSlots, if_neg hfs, hch, if_true]
    exact (updateMemo_fields fs _).1
  · simp only [notifyAboutFoundSlots, if_neg hfs, hch, if_true]
    exact (updateMemo_fields fs _).2.1

/-- Witness for C3 and the spec scenario: the previous cycle found X; the next
cycle finds X again (fresh timestamp) plus a new slot Y. The theorem applies,
and concretely the notifier is called exactly once, for Y, while the persisted
snapshot afterwards contains both X and Y. -/
theorem notifier_once_per_new_key_witness :
    ([exSlotX2, exSlotY] : List FoundSlot) ≠ [] ∧
    slotsChanged exStateAfterX.current_active_slots
      ([exSlotX2, exSlotY].map FoundSlot.to_dict) = true ∧
    (([exSlotX2, exSlotY].map FoundSlot.to_dict).map changeKey).Nodup ∧
    ((notifyAboutFoundSlots exStateAfterX [exSlotX2, exSlotY]).2 =
      ([exSlotX2, exSlotY].map FoundSlot.to_dict).filter
        (fun r => decide (changeKey r ∉ keySet exStateAfterX.current_active_slots)) ∧
     ((notifyAboutFoundSlots exStateAfterX [exSlotX2, exSlotY]).2.map changeKey).Nodup ∧
     ((notifyAboutFoundSlots exStateAfterX [exSlotX2, exSlotY]).2.map changeKey).toFinset =
       keySet ([exSlotX2, exSlotY].map FoundSlot.to_dict) \
         keySet exStateAfterX.current_active_slots ∧
     (notifyAboutFoundSlots exStateAfterX [exSlotX2, exSlotY]).1.current_active_slots =
       [exSlotX2, exSlotY].map FoundSlot.to_dict ∧
     (notifyAboutFoundSlots exStateAfterX [exSlotX2, exSlotY]).1.persisted =
       [exSlotX2, exSlotY].map FoundSlot.to_dict) ∧
    (notifyAboutFoundSlots exStateAfterX [exSlotX2, exSlotY]).2 = [exSlotY.to_dict] ∧
    changeKey exSlotX.to_dict ∈
      keySet (notifyAboutFoundSlots exStateAfterX [exSlotX2, exSlotY]).1.persisted ∧
    changeKey exSlotY.to_dict ∈
      keySet (notifyAboutFoundSlots exStateAfterX [exSlotX2, exSlotY]).1.persisted :=
  ⟨by decide, by decide, by decide,
   notifier_once_per_new_key exStateAfterX [exSlotX2, exSlotY]
     (by decide) (by decide) (by decide),
   by decide, by decide, by decide⟩

/-- Counterexample for C3 as stated: a new list containing the same identity
key twice (X discovered at two timestamps) makes the notifier fire twice for
that single key in newKeys − oldKeys, so "exactly once per identity key" fails
without a duplicate-freedom assumption. -/
theorem notifier_duplicate_key_counterexample :
    slotsChanged exEmptyState.current_active_slots
      ([exSlotX, exSlotX2].map FoundSlot.to_dict) = true ∧
    changeKey exSlotX.to_dict = changeKey exSlotX2.to_dict ∧
    (notifyAboutFoundSlots exEmptyState [exSlotX, exSlotX2]).2.length = 2 ∧
    ¬ (((notifyAboutFoundSlots exEmptyState [exSlotX, exSlotX2]).2.map changeKey).Nodup) := by
  refine ⟨by decide, by decide, by decide, by decide⟩

lemma processProduct_state_cases (st : MonitorState) (p : List FoundSlot) :
    ((processProduct st p).1.current_active_slots = st.current_active_slots ∧
     (processProduct st p).1.persisted = st.persisted ∧
     (processProduct st p).1.write_log = st.write_log) ∨
    (p ≠ [] ∧ (processProduct st p).1.current_active_slots = p.map FoundSlot.to_dict ∧
     (processProduct st p).1.persisted = p.map FoundSlot.to_dict ∧
     (processProduct st p).1.write_log = st.write_log ++ [p.map FoundSlot.to_dict]) := by
  by_cases hp : p = []
  · left
    simp [processProduct, hp]
  · by_cases hch : slotsChanged st.current_active_slots (p.map FoundSlot.to_dict) = true
    · right
      have hu := updateMemo_fields p
        { st with current_active_slots := p.map FoundSlot.to_dict
                  persisted := p.map FoundSlot.to_dict
                  write_log := st.write_log ++ [p.map FoundSlot.to_dict] }
      simp only [processProduct, if_neg hp, notifyAboutFoundSlots, hch, if_true]
      exact ⟨hp, hu.1, hu.2.1, hu.2.2⟩
    · left
      have hch' := eq_false_of_ne_true hch
      have hu := updateMemo_fields p st
      simp only [processProduct, if_neg hp, notifyAboutFoundSlots, hch',
        Bool.false_eq_true, if_false]
      exact ⟨hu.1, hu.2.1, hu.2.2⟩

lemma runCycle_fst (st : MonitorState) (p : List FoundSlot) (ps : List (List FoundSlot)) :
    (runCycle st (p :: ps)).1 = (runCycle (processProduct st p).1 ps).1 := rfl

lemma runCycle_state_cases (ps : List (List FoundSlot)) (st : MonitorState) :
    ((runCycle st ps).1.current_active_slots = st.current_active_slots ∧
     (runCycle st ps).1.persisted = st.persisted) ∨
    (∃ p ∈ ps, p ≠ [] ∧ (runCycle st ps).1.current_active_slots = p.map FoundSlot.to_dict ∧
      (runCycle st ps).1.persisted = p.map FoundSlot.to_dict) := by
  induction ps generalizing st with
  | nil => exact Or.inl ⟨rfl, rfl⟩
  | cons p ps ih =>
    rw [runCycle_fst]
    rcases ih (processProduct st p).1 with h | ⟨q, hq, hqne, hcur, hper⟩
    · rcases processProduct_state_cases st p with h' | ⟨hne, hcur, hper, _⟩
      · exact Or.inl ⟨h.1.trans h'.1, h.2.trans h'.2.1⟩
      · exact Or.inr ⟨p, List.mem_cons_self p ps, hne, h.1.trans hcur, h.2.trans hper⟩
    · exact Or.inr ⟨q, List.mem_cons_of_mem p hq, hqne, hcur, hper⟩

lemma runCycle_write_log (ps : List (List FoundSlot)) (st : MonitorState) :
    ∀ w ∈ (runCycle st ps).1.write_log,
      w ∈ st.write_log ∨ ∃ p ∈ ps, p ≠ [] ∧ w = p.map FoundSlot.to_dict := by
  induction ps generalizing st with
  | nil => intro w hw; exact Or.inl hw
  | cons p ps ih =>
    intro w hw
    rw [runCycle_fst] at hw
    rcases ih (processProduct st p).1 w hw with h | ⟨q, hq, hqne, hqe⟩
    · rcases processProduct_state_cases st p with h' | ⟨hne, _, _, hwl⟩
      · rw [h'.2.2] at h
        exact Or.inl h
      · rw [hwl] at h
        rcases List.mem_append.mp h with h | h
        · exact Or.inl h
        · exact Or.inr ⟨p, List.mem_cons_self p ps, hne, (List.mem_singleton.mp h)⟩
    · exact Or.inr ⟨q, List.mem_cons_of_mem p hq, hqne, hqe⟩

/-- C2 (amended): across one monitoring cycle the snapshot is replaced once per
product whose non-empty matching list differs in key set from the then-current
snapshot — possibly several times per cycle. Consequently the snapshot and the
persisted file after the cycle are either untouched or equal to the serialized
list of a SINGLE product processed in the cycle, and every persistence write
performed during the cycle carries a single product's list — never the full
set of FoundSlots across all products. -/
theorem snapshot_final_is_single_product_list (st : MonitorState)
    (ps : List (List FoundSlot)) :
    (((runCycle st ps).1.current_active_slots = st.current_active_slots ∧
      (runCycle st ps).1.persisted = st.persisted) ∨
     (∃ p ∈ ps, p ≠ [] ∧
       (runCycle st ps).1.current_active_slots = p.map FoundSlot.to_dict ∧
       (runCycle st ps).1.persisted = p.map FoundSlot.to_dict)) ∧
    (∀ w ∈ (runCycle st ps).1.write_log,
       w ∈ st.write_log ∨ ∃ p ∈ ps, p ≠ [] ∧ w = p.map FoundSlot.to_dict) :=
  ⟨runCycle_state_cases ps st, runCycle_write_log ps st⟩

/-- Witness for C2's amended theorem at a concrete cycle: two products found
slots X and Y respectively; the second conjunct instantiated at the first
logged write shows it is product X's one-element list. -/
theorem snapshot_final_is_single_product_list_witness :
    (((runCycle exEmptyState [[exSlotX], [exSlotY]]).1.current_active_slots =
        exEmptyState.current_active_slots ∧
      (runCycle exEmptyState [[exSlotX], [exSlotY]]).1.persisted = exEmptyState.persisted) ∨
     (∃ p ∈ [[exSlotX], [exSlotY]], p ≠ [] ∧
       (runCycle exEmptyState [[exSlotX], [exSlotY]]).1.current_active_slots =
         p.map FoundSlot.to_dict ∧
       (runCycle exEmptyState [[exSlotX], [exSlotY]]).1.persisted =
         p.map FoundSlot.to_dict)) ∧
    ([exSlotX.to_dict] ∈ exEmptyState.write_log ∨
     ∃ p ∈ [[exSlotX], [exSlotY]], p ≠ [] ∧ [exSlotX.to_dict] = p.map FoundSlot.to_dict) :=
  ⟨(snapshot_final_is_single_product_list exEmptyState [[exSlotX], [exSlotY]]).1,
   (snapshot_final_is_single_product_list exEmptyState [[exSlotX], [exSlotY]]).2
     [exSlotX.to_dict] (by decide)⟩

/-- Counterexample for C2 as stated: with two products each finding one slot,
the persisted snapshot is replaced twice within the single cycle (not at most
once), and the final snapshot is the last product's one-element list — it does
not contain slot X even though X was found in the same cycle. -/
theorem snapshot_replaced_per_product_counterexample :
    (runCycle exEmptyState [[exSlotX], [exSlotY]]).1.write_log.length = 2 ∧
    (runCycle exEmptyState [[exSlotX], [exSlotY]]).1.current_active_slots =
      [exSlotY.to_dict] ∧
    exSlotX.to_dict ∉ (runCycle exEmptyState [[exSlotX], [exSlotY]]).1.current_active_slots := by
  refine ⟨by decide, by decide, by decide⟩

/-- C10: a product with an empty matching-slot list never enters the
change-detection path — the state (snapshot, persisted file, memo, statistics,
audit log) is returned unchanged with no notifier call — and consequently a
previously non-empty snapshot is never cleared by a cycle, no matter what the
cycle finds. -/
theorem empty_slots_frame (st : MonitorState) (ps : List (List FoundSlot))
    (hne : st.current_active_slots ≠ []) :
    processProduct st [] = (st, []) ∧
    notifyAboutFoundSlots st [] = (st, []) ∧
    (runCycle st ps).1.current_active_slots ≠ [] := by
  refine ⟨by simp [processProduct], by simp [notifyAboutFoundSlots], ?_⟩
  rcases runCycle_state_cases ps st with ⟨hcur, _⟩ | ⟨p, _, hpne, hcur, _⟩
  · rw [hcur]; exact hne
  · rw [hcur]; simpa using hpne

/-- Witness for C10: concrete state holding slot X, a cycle whose only product
found nothing — the snapshot survives. -/
theorem empty_slots_frame_witness :
    exStateAfterX.current_active_slots ≠ [] ∧
    (processProduct exStateAfterX [] = (exStateAfterX, []) ∧
     notifyAboutFoundSlots exStateAfterX [] = (exStateAfterX, []) ∧
     (runCycle exStateAfterX [[]]).1.current_active_slots ≠ []) :=
  ⟨by decide, empty_slots_frame exStateAfterX [[]] (by decide)⟩

lemma card_insert_sdiff (k : String × Int × Int × String)
    (R M : Finset (String × Int × Int × String)) (hk : k ∉ M) :
    (insert k R \ M).card = (R \ insert k M).card + 1 := by
  have h1 : insert k R \ M = insert k (R \ M) := by
    ext x
    simp only [Finset.mem_sdiff, Finset.mem_insert]
    constructor
    · rintro ⟨hx | hx, hxm⟩
      · exact Or.inl hx
      · exact Or.inr ⟨hx, hxm⟩
    · rintro (rfl | ⟨hx, hxm⟩)
      · exact ⟨Or.inl rfl, hk⟩
      · exact ⟨Or.inr hx, hxm⟩
  have h2 : R \ insert k M = (R \ M).erase k := by
    ext x
    simp only [Finset.mem_sdiff, Finset.mem_insert, Finset.mem_erase, not_or]
    constructor
    · rintro ⟨hx, hxk, hxm⟩
      exact ⟨hxk, hx, hxm⟩
    · rintro ⟨hxk, hx, hxm⟩
      exact ⟨hx, hxk, hxm⟩
  rw [h1, h2]
  by_cases hkr : k ∈ R \ M
  · rw [Finset.insert_eq_self.mpr hkr, Finset.card_erase_of_mem hkr]
    have hpos : 0 < (R \ M).card := Finset.card_pos.mpr ⟨k, hkr⟩
    omega
  · rw [Finset.card_insert_of_not_mem hkr, Finset.erase_eq_of_not_mem hkr]

lemma insert_sdiff_of_mem (k : String × Int × Int × String)
    (R M : Finset (String × Int × Int × String)) (hk : k ∈ M) :
    insert k R \ M = R \ M := by
  ext x
  simp only [Finset.mem_sdiff, Finset.mem_insert]
  constructor
  · rintro ⟨rfl | hx, hxm⟩
    · exact absurd hk hxm
    · exact ⟨hx, hxm⟩
  · rintro ⟨hx, hxm⟩
    exact ⟨Or.inr hx, hxm⟩

lemma updateMemo_memo_spec (fs : List FoundSlot) (st : MonitorState) :
    (updateMemo st fs).notified_slots.toFinset =
      st.notified_slots.toFinset ∪ (fs.map memoKey).toFinset ∧
    (updateMemo st fs).slots_found =
      st.slots_found + ((fs.map memoKey).toFinset \ st.notified_slots.toFinset).card ∧
    (updateMemo st fs).audit_log.length =
      st.audit_log.length + ((fs.map memoKey).toFinset \ st.notified_slots.toFinset).card := by
  induction fs generalizing st with
  | nil => simp [updateMemo]
  | cons s rest ih =>
    have hstep : updateMemo st (s :: rest) = updateMemo (memoStep st s) rest := rfl
    by_cases hmem : memoKey s ∈ st.notified_slots
    · have hms : memoStep st s = st := by simp [memoStep, hmem]
      have hkM : memoKey s ∈ st.notified_slots.toFinset := List.mem_toFinset.mpr hmem
      have hs : insert (memoKey s) (rest.map memoKey).toFinset \ st.notified_slots.toFinset =
          (rest.map memoKey).toFinset \ st.notified_slots.toFinset :=
        insert_sdiff_of_mem _ _ _ hkM
      have hins : st.notified_slots.toFinset ∪
          insert (memoKey s) (rest.map memoKey).toFinset =
          st.notified_slots.toFinset ∪ (rest.map memoKey).toFinset := by
        rw [Finset.union_insert, Finset.insert_eq_self.mpr (Finset.mem_union_left _ hkM)]
      rw [hstep, hms]
      obtain ⟨i1, i2, i3⟩ := ih st
      refine ⟨?_, ?_, ?_⟩
      · rw [i1]
        simp only [List.map_cons, List.toFinset_cons]
        exact hins.symm
      · rw [i2]
        simp only [List.map_cons, List.toFinset_cons, hs]
      · rw [i3]
        simp only [List.map_cons, List.toFinset_cons, hs]
    · have hkM : memoKey s ∉ st.notified_slots.toFinset := fun h =>
        hmem (List.mem_toFinset.mp h)
      have hms : memoStep st s =
          { st with notified_slots := st.notified_slots ++ [memoKey s]
                    slots_found := st.slots_found + 1
                    audit_log := st.audit_log ++ [s.to_dict] } := by
        simp [memoStep, hmem]
      have hcard := card_insert_sdiff (memoKey s) (rest.map memoKey).toFinset
        st.notified_slots.toFinset hkM
      rw [hstep, hms]
      obtain ⟨i1, i2, i3⟩ := ih
        { st with notified_slots := st.notified_slots ++ [memoKey s]
                  slots_found := st.slots_found + 1
                  audit_log := st.audit_log ++ [s.to_dict] }
      have htf : (st.notified_slots ++ [memoKey s]).toFinset =
          insert (memoKey s) st.notified_slots.toFinset := by
        ext x
        simp only [List.toFinset_append, List.toFinset_cons, List.toFinset_nil,
          Finset.mem_union, Finset.mem_insert, Finset.not_mem_empty, or_false]
        tauto
      refine ⟨?_, ?_, ?_⟩
      · rw [i1]
        simp only [List.map_cons, List.toFinset_cons, htf]
        ext x
        simp only [Finset.mem_union, Finset.mem_insert]
        tauto
      · rw [i2]
        simp only [List.map_cons, List.toFinset_cons, htf, hcard]
        omega
      · rw [i3]
        simp only [List.map_cons, List.toFinset_cons, htf, hcard, List.length_append,
          List.length_singleton]
        omega

/-- C9 (amended): regardless of change status, every slot in the processed
list is checked against the `notified_slots` memo under the key
`(barcode, warehouse_id, calendar day of date, box_type_name)` — the
coefficient is NOT part of this key, unlike the change-detection identity key —
and each slot whose memo key was never seen adds its key to the memo, bumps
the distinct-slots-found statistic by one and appends exactly one audit-log
record. -/
theorem memo_statistics_count (st : MonitorState) (fs : List FoundSlot) :
    (notifyAboutFoundSlots st fs).1.notified_slots.toFinset =
      st.notified_slots.toFinset ∪ (fs.map memoKey).toFinset ∧
    (notifyAboutFoundSlots st fs).1.slots_found =
      st.slots_found + ((fs.map memoKey).toFinset \ st.notified_slots.toFinset).card ∧
    (notifyAboutFoundSlots st fs).1.audit_log.length =
      st.audit_log.length + ((fs.map memoKey).toFinset \ st.notified_slots.toFinset).card := by
  by_cases hfs : fs = []
  · subst hfs
    simp [notifyAboutFoundSlots]
  · simp only [notifyAboutFoundSlots, if_neg hfs]
    by_cases hch : slotsChanged st.current_active_slots (fs.map FoundSlot.to_dict) = true
    · simp only [hch, if_true]
      exact updateMemo_memo_spec fs _
    · have hch' := eq_false_of_ne_true hch
      simp only [hch', Bool.false_eq_true, if_false]
      exact updateMemo_memo_spec fs st

/-- Counterexample for C9 as stated: two slots at the same warehouse, day and
box type but with different coefficients have DIFFERENT §3 identity keys, yet
the bookkeeping memo treats them as one slot: processing both from a fresh
state yields `slots_found = 1` and a single audit record, because the memo key
omits the coefficient. Under the claimed 5-tuple key both would be counted. -/
theorem memo_key_ignores_coefficient_counterexample :
    changeKey exSlotX.to_dict ≠ changeKey exSlotC1.to_dict ∧
    memoKey exSlotX = memoKey exSlotC1 ∧
    (notifyAboutFoundSlots exEmptyState [exSlotX, exSlotC1]).1.slots_found = 1 ∧
    (notifyAboutFoundSlots exEmptyState [exSlotX, exSlotC1]).1.audit_log.length = 1 := by
  refine ⟨by decide, by decide, by decide, by decide⟩

lemma calcPause_adaptive (ci : Rat) (st : SchedulerState) (d now : Rat) :
    calculateDynamicPause true ci st d now =
      ((if d ≥ 10 then (1/10 : Rat)
        else if (windowUpdate st now).cycles_in_current_minute ≥ 6 then
          if 60 - (now - (windowUpdate st now).current_minute_start.getD now) > 0 then
            60 - (now - (windowUpdate st now).current_minute_start.getD now)
          else 1/10
        else if (6 - ((windowUpdate st now).cycles_in_current_minute : Int)) ≤ 0 then 1/10
        else max (1/10)
          ((60 - (now - (windowUpdate st now).current_minute_start.getD now)) /
            (((6 - ((windowUpdate st now).cycles_in_current_minute : Int)) : Int) : Rat))),
       windowUpdate st now) := rfl

/-- C6 (amended): a cycle of duration ≥ 10s yields exactly the floor pause 0.1s,
but the slow cycle still increments the in-window cycle counter — it DOES
count toward the 6-cycles-per-window budget (the counter update precedes the
slow-cycle test in the source). -/
theorem slow_cycle_pause_floor (ci : Rat) (st : SchedulerState) (d now : Rat)
    (hd : d ≥ 10) :
    calculateDynamicPause true ci st d now = (1/10, windowUpdate st now) ∧
    (∀ s, st.current_minute_start = some s → ¬ (now - s ≥ 60) →
      (windowUpdate st now).cycles_in_current_minute = st.cycles_in_current_minute + 1) := by
  constructor
  · rw [calcPause_adaptive, if_pos hd]
  · intro s hs h60
    simp [windowUpdate, hs, h60]

/-- Witness for C6: a 15-second cycle in mid-window (started at t=0, now t=5,
2 cycles so far) gets pause 0.1 and the counter moves to 3. -/
theorem slow_cycle_pause_floor_witness :
    (15 : Rat) ≥ 10 ∧
    calculateDynamicPause true 120 ⟨some 0, 2⟩ 15 5 = (1/10, windowUpdate ⟨some 0, 2⟩ 5) ∧
    (windowUpdate ⟨some 0, 2⟩ 5).cycles_in_current_minute = 2 + 1 :=
  ⟨by norm_num,
   (slow_cycle_pause_floor 120 ⟨some 0, 2⟩ 15 5 (by norm_num)).1,
   (slow_cycle_pause_floor 120 ⟨some 0, 2⟩ 15 5 (by norm_num)).2 0 rfl (by norm_num)⟩

/-- Counterexample for C6 as stated: after a 15-second cycle the in-window
counter has still advanced (2 → 3) — the slow cycle consumed one of the six
budgeted cycles, contradicting "does not count toward the even-spacing
budget". -/
theorem slow_cycle_counts_counterexample :
    (calculateDynamicPause true 120 ⟨some 0, 2⟩ 15 5).1 = 1/10 ∧
    (calculateDynamicPause true 120 ⟨some 0, 2⟩ 15 5).2.cycles_in_current_minute = 3 := by
  constructor
  · rw [calcPause_adaptive]
    norm_num
  · rw [calcPause_adaptive]
    norm_num [windowUpdate]

/-- C7 (amended): with adaptive mode on, every computed pause is strictly
positive; the slow-cycle branch returns exactly the 0.1 floor and the
even-spacing branches never go below it — but the quota-exhausted branch
returns the raw remaining window time with NO 0.1 floor (see the
counterexample), so the global "never below ~0.1s" part of the claim fails. -/
theorem pause_positive_and_floor (ci : Rat) (st : SchedulerState) (d now : Rat) :
    0 < (calculateDynamicPause true ci st d now).1 ∧
    (d ≥ 10 → (calculateDynamicPause true ci st d now).1 = 1/10) ∧
    ((windowUpdate st now).cycles_in_current_minute < 6 →
      1/10 ≤ (calculateDynamicPause true ci st d now).1) := by
  rw [calcPause_adaptive]
  refine ⟨?_, ?_, ?_⟩
  · dsimp only
    split_ifs with h1 h2 h3 h4
    · norm_num
    · exact h3
    · norm_num
    · norm_num
    · exact lt_of_lt_of_le (by norm_num) (le_max_left _ _)
  · intro hd
    dsimp only
    rw [if_pos hd]
  · intro hc
    dsimp only
    split_ifs with h1 h2 h3 h4
    · norm_num
    · exact absurd h2 (by omega)
    · exact absurd h2 (by omega)
    · norm_num
    · exact le_max_left _ _

/-- Witness for C7: the amended theorem instantiated at a slow cycle in
mid-window, where all three conjuncts are concrete. -/
theorem pause_positive_and_floor_witness :
    0 < (calculateDynamicPause true 120 ⟨some 0, 2⟩ 15 5).1 ∧
    ((15 : Rat) ≥ 10 → (calculateDynamicPause true 120 ⟨some 0, 2⟩ 15 5).1 = 1/10) ∧
    ((windowUpdate ⟨some 0, 2⟩ 5).cycles_in_current_minute < 6 →
      1/10 ≤ (calculateDynamicPause true 120 ⟨some 0, 2⟩ 15 5).1) :=
  pause_positive_and_floor 120 ⟨some 0, 2⟩ 15 5

/-- Counterexample for C7 as stated: with the six-cycle quota used and 59.95s
of the window elapsed, the quota branch returns the remaining 0.05s — a pause
strictly below the configured ~0.1s floor. -/
theorem quota_branch_below_floor_counterexample :
    (calculateDynamicPause true 120 ⟨some 0, 5⟩ 2 (1199/20)).1 = 1/20 ∧
    (1/20 : Rat) < 1/10 := by
  constructor
  · rw [calcPause_adaptive]
    norm_num [windowUpdate]
  · norm_num

/-- C8 (amended): no single cycle outcome other than `KeyboardInterrupt` stops
the monitoring loop; an exception reaching the OUTER handler increments the
error counter and is followed by the fixed 30-second recovery sleep; but
task-fetch and per-group exceptions are swallowed at inner levels — they leave
the error counter untouched and are followed by the normal adaptive pause, not
the recovery pause (and 30s is not in general shorter than the adaptive
pause — see the counterexample). -/
theorem loop_continues_on_errors (ea : Bool) (ci : Rat) (st : LoopState) (d now : Rat) :
    (∀ ev, ev ≠ CycleEvent.keyboardInterrupt →
      ∃ st' p, monitorLoopStep ea ci st ev d now = StepOutcome.running st' p) ∧
    monitorLoopStep ea ci st CycleEvent.outerError d now =
      StepOutcome.running ⟨st.errors_count + 1, st.sched⟩ 30 ∧
    (∀ ev, ev = CycleEvent.ok ∨ ev = CycleEvent.taskFetchError ∨ ev = CycleEvent.groupError →
      monitorLoopStep ea ci st ev d now =
        StepOutcome.running
          ⟨st.errors_count, (calculateDynamicPause ea ci st.sched d now).2⟩
          (calculateDynamicPause ea ci st.sched d now).1) := by
  refine ⟨?_, rfl, ?_⟩
  · intro ev hev
    cases ev with
    | ok => exact ⟨_, _, rfl⟩
    | taskFetchError => exact ⟨_, _, rfl⟩
    | groupError => exact ⟨_, _, rfl⟩
    | outerError => exact ⟨_, _, rfl⟩
    | keyboardInterrupt => exact absurd rfl hev
  · rintro ev (rfl | rfl | rfl) <;> rfl

/-- Witness for C8's amended theorem: an outer-handler exception at a concrete
state increments the counter and sleeps 30s, and the loop keeps running. -/
theorem loop_continues_on_errors_witness :
    (∃ st' p, monitorLoopStep true 120 ⟨0, ⟨none, 0⟩⟩ CycleEvent.outerError 2 0 =
      StepOutcome.running st' p) ∧
    monitorLoopStep true 120 ⟨0, ⟨none, 0⟩⟩ CycleEvent.outerError 2 0 =
      StepOutcome.running ⟨0 + 1, ⟨none, 0⟩⟩ 30 :=
  ⟨(loop_continues_on_errors true 120 ⟨0, ⟨none, 0⟩⟩ 2 0).1 CycleEvent.outerError
     (by decide),
   (loop_continues_on_errors true 120 ⟨0, ⟨none, 0⟩⟩ 2 0).2.1⟩

/-- Counterexample for C8 as stated: a task-fetch exception (caught inside
`_perform_monitoring_cycle`) leaves the error counter at 0 and is followed by
the normal adaptive pause of 12s — not the fixed recovery pause — and the 30s
recovery pause is NOT shorter than that adaptive pause. -/
theorem inner_error_no_counter_counterexample :
    monitorLoopStep true 120 ⟨0, ⟨none, 0⟩⟩ CycleEvent.taskFetchError 2 0 =
      StepOutcome.running ⟨0, ⟨some 0, 1⟩⟩ 12 ∧
    ¬ ((30 : Rat) < 12) := by
  constructor
  · show StepOutcome.running
      ⟨0, (calculateDynamicPause true 120 ⟨none, 0⟩ 2 0).2⟩
      (calculateDynamicPause true 120 ⟨none, 0⟩ 2 0).1 = _
    rw [calcPause_adaptive]
    norm_num [windowUpdate]
  · norm_num
